import Mathlib

/-!
Verification development for the TerminalLinux repository: a shallow
embedding of `src/lib/terminalStorage.ts` and `src/lib/commandProcessor.ts`
into Lean, together with theorems settling the specification claims.

Modelling conventions:
* JavaScript objects `Record<string, FileSystemNode>` become association
  lists (`FSChildren`); property assignment is replace-or-append, `delete`
  removes the key, `Object.entries` order is insertion order, matching JS.
* The optional `children` field of a node is modelled as an always-present
  `FSChildren` value: a file carries `.nil` (the JS `undefined`), which is
  observationally identical because every lookup in it fails, exactly as
  `!current.children` short-circuits in the source.
* In-place mutation of a node obtained from `getNode` is rendered as a
  functional update along the same path (`fsUpdateAt`).
* `Date.now()` is an explicit `now : Nat` parameter, `Math.random()` an
  explicit `rand : Nat` parameter.
* `localStorage` is the explicit `store : FileSystem` value threaded through
  the command processor; `loadFileSystem()` reads it, `saveFileSystem(fs)`
  replaces it.  A JSON round trip yields a fresh structurally equal value,
  which is exactly what passing the value along models.
* All string helpers are defined structurally over `String.data` so closed
  terms evaluate inside the kernel.
-/

namespace TerminalLinux

/-! ## String helpers (JS semantics) -/

/-- JS `Array.prototype.lastIndexOf`-style scan for a character; `-1` when
absent, otherwise the 0-based index of the last occurrence. -/
def lastIndexOfGo (c : Char) : List Char → Int → Int → Int
  | [], _, acc => acc
  | x :: xs, i, acc => lastIndexOfGo c xs (i + 1) (if x = c then i else acc)

/-- JS `s.lastIndexOf(c)`. -/
def lastIndexOf (s : String) (c : Char) : Int :=
  lastIndexOfGo c s.data 0 (-1)

/-- First index of a character, `-1` when absent: JS `s.indexOf(c)`. -/
def strIndexOfGo (c : Char) : List Char → Int → Int
  | [], _ => -1
  | x :: xs, i => if x = c then i else strIndexOfGo c xs (i + 1)

/-- JS `s.indexOf(c)`. -/
def strIndexOf (s : String) (c : Char) : Int :=
  strIndexOfGo c s.data 0

/-- JS `s.substring(0, n)` for `n ≥ 0`. -/
def strTake (s : String) (n : Nat) : String :=
  ⟨s.data.take n⟩

/-- JS `s.substring(n)` for `n ≥ 0` (clamped at the end of the string). -/
def strDrop (s : String) (n : Nat) : String :=
  ⟨s.data.drop n⟩

/-- JS `t.startsWith(p)`. -/
def strStartsWith (s pre : String) : Bool :=
  pre.data.isPrefixOf s.data

/-- JS `s.trim()` (whitespace stripped from both ends). -/
def strTrim (s : String) : String :=
  ⟨((s.data.dropWhile Char.isWhitespace).reverse.dropWhile Char.isWhitespace).reverse⟩

/-- JS `s.toLowerCase()` (ASCII, which is all the source needs). -/
def strToLower (s : String) : String :=
  ⟨s.data.map Char.toLower⟩

/-- JS `s.includes(c)` for a single character. -/
def strContainsChar (s : String) (c : Char) : Bool :=
  s.data.contains c

/-- Split on a separator character, keeping empty pieces: JS `s.split('/')`. -/
def splitCharGo (c : Char) : List Char → List Char → List String
  | [], acc => [⟨acc.reverse⟩]
  | x :: xs, acc =>
    if x = c then (⟨acc.reverse⟩ : String) :: splitCharGo c xs []
    else splitCharGo c xs (x :: acc)

/-- JS `s.split(c)` for a one-character separator. -/
def splitChar (s : String) (c : Char) : List String :=
  splitCharGo c s.data []

/-- Split on whitespace and drop empty pieces; on a trimmed string this is
exactly JS `s.split(/\s+/)`. -/
def splitWsGo : List Char → List Char → List String
  | [], acc => [⟨acc.reverse⟩]
  | x :: xs, acc =>
    if x.isWhitespace then (⟨acc.reverse⟩ : String) :: splitWsGo xs []
    else splitWsGo xs (x :: acc)

/-- Whitespace-run split of the trimmed command line, as the source computes
`command.trim().split(/\s+/)` (empty input gives `[]` here against JS's
`[""]`; the dispatcher's empty-input early return makes that unobservable). -/
def splitArgs (command : String) : List String :=
  (splitWsGo (strTrim command).data []).filter (fun t => t ≠ "")

/-- JS `parts.join(sep)`. -/
def strJoin (sep : String) : List String → String
  | [] => ""
  | [x] => x
  | x :: xs => x ++ sep ++ strJoin sep xs

/-- Does some suffix of `s` start with `pat`? -/
def containsSubGo (pat : List Char) : List Char → Bool
  | [] => pat.isPrefixOf []
  | x :: xs => pat.isPrefixOf (x :: xs) || containsSubGo pat xs

/-- JS substring containment `line.includes(pattern)`. -/
def strContainsSubstr (s pat : String) : Bool :=
  containsSubGo pat.data s.data

/-! ## Data model (`terminalStorage.ts`) -/

/-- The `type` tag of a `FileSystemNode`. -/
inductive NodeType where
  | file
  | directory
deriving DecidableEq

/- `FileSystemNode` and its `children` record, as one mutual inductive so
that every definition below is structurally recursive. -/
mutual
/-- A node of the simulated filesystem (`FileSystemNode` in the source). -/
inductive FSNode where
  | mk (type : NodeType) (content : Option String) (children : FSChildren)
       (owner : String) (permissions : String) (created : Nat) (modified : Nat)

/-- The `children` mapping of a directory, in insertion order. -/
inductive FSChildren where
  | nil
  | cons (name : String) (node : FSNode) (rest : FSChildren)
end

def FSNode.type : FSNode → NodeType
  | .mk t _ _ _ _ _ _ => t

def FSNode.content : FSNode → Option String
  | .mk _ c _ _ _ _ _ => c

def FSNode.children : FSNode → FSChildren
  | .mk _ _ ch _ _ _ _ => ch

def FSNode.owner : FSNode → String
  | .mk _ _ _ o _ _ _ => o

def FSNode.permissions : FSNode → String
  | .mk _ _ _ _ p _ _ => p

def FSNode.created : FSNode → Nat
  | .mk _ _ _ _ _ cr _ => cr

def FSNode.modified : FSNode → Nat
  | .mk _ _ _ _ _ _ m => m

/-- Replace the `children` field (JS `node.children = …`). -/
def FSNode.withChildren : FSNode → FSChildren → FSNode
  | .mk t c _ o p cr m, ch => .mk t c ch o p cr m

/-- Replace the `permissions` field (JS `node.permissions = …`). -/
def FSNode.withPermissions : FSNode → String → FSNode
  | .mk t c ch o _ cr m, p => .mk t c ch o p cr m

/-- JS `children[name]` read access. -/
def FSChildren.lookup : FSChildren → String → Option FSNode
  | .nil, _ => none
  | .cons n v r, k => if n = k then some v else r.lookup k

/-- JS `children[name] = v` (replace an existing key, else append). -/
def FSChildren.insert : FSChildren → String → FSNode → FSChildren
  | .nil, k, v => .cons k v .nil
  | .cons n w r, k, v => if n = k then .cons k v r else .cons n w (r.insert k v)

/-- JS `delete children[name]`. -/
def FSChildren.erase : FSChildren → String → FSChildren
  | .nil, _ => .nil
  | .cons n w r, k => if n = k then r.erase k else .cons n w (r.erase k)

/-- JS `Object.entries(children)` (insertion order). -/
def FSChildren.toList : FSChildren → List (String × FSNode)
  | .nil => []
  | .cons n v r => (n, v) :: r.toList

/-- One entry of the `users` registry. -/
structure UserInfo where
  password : String
  isAdmin : Bool
  homeDir : String
deriving DecidableEq

/-- The persisted store: `root` tree, `currentUser`, `users` registry. -/
structure FileSystem where
  root : FSNode
  currentUser : String
  users : List (String × UserInfo)

/-- JS `fs.users[name]` read access. -/
def usersLookup (us : List (String × UserInfo)) (k : String) : Option UserInfo :=
  match us with
  | [] => none
  | (n, u) :: r => if n = k then some u else usersLookup r k

/-- JS `fs.users[name].password = pw`. -/
def usersSetPassword (us : List (String × UserInfo)) (k pw : String) :
    List (String × UserInfo) :=
  us.map (fun e => if e.1 = k then (e.1, { e.2 with password := pw }) else e)

/-! ## Path resolution and tree access -/

/-- `path.split('/').filter(Boolean)`. -/
def pathSegments (s : String) : List String :=
  (splitChar s '/').filter (fun t => t ≠ "")

/-- The current user's home directory with the source's `|| '/home/' + user`
fallback (JS `||` also replaces an empty `homeDir`). -/
def currentHomeDir (fs : FileSystem) : String :=
  match usersLookup fs.users fs.currentUser with
  | some u => if u.homeDir = "" then "/home/" ++ fs.currentUser else u.homeDir
  | none => "/home/" ++ fs.currentUser

/-- `resolvePath` from `terminalStorage.ts`: absolute paths pass through,
`~`/`~/` expand to the home directory, and relative paths are applied
segment by segment to the current path (`..` pops, `.` is skipped). -/
def resolvePath (fs : FileSystem) (path : String) (currentPath : String) : String :=
  if strStartsWith path "/" then path
  else if path = "~" then currentHomeDir fs
  else if strStartsWith path "~/" then currentHomeDir fs ++ strDrop path 1
  else
    let segments := pathSegments path
    let currentSegments := pathSegments currentPath
    let finalSegments := segments.foldl
      (fun acc seg =>
        if seg = ".." then acc.dropLast
        else if seg = "." then acc
        else acc ++ [seg]) currentSegments
    "/" ++ strJoin "/" finalSegments

/-- Walk of `getNode`: descend through `children` one segment at a time;
`none` as soon as a lookup fails (for a file every lookup fails, matching
the `!current.children` check in the source). -/
def getNodeSegs : FSNode → List String → Option FSNode
  | node, [] => some node
  | node, s :: rest =>
    match node.children.lookup s with
    | none => none
    | some c => getNodeSegs c rest

/-- `getNode` from `terminalStorage.ts`. -/
def getNode (fs : FileSystem) (path : String) : Option FSNode :=
  if path = "/" then some fs.root
  else getNodeSegs fs.root (pathSegments path)

/-- Functional rendering of the source's in-place mutation of the node that
`getNode(path)` returned: rebuild the tree along the same walk, applying
`f` at the end; if the walk fails the tree is unchanged (the callers only
mutate after a successful `getNode`). -/
def updateNodeSegs (f : FSNode → FSNode) : FSNode → List String → FSNode
  | node, [] => f node
  | node, s :: rest =>
    match node.children.lookup s with
    | none => node
    | some c => node.withChildren (node.children.insert s (updateNodeSegs f c rest))

/-- Apply `f` to the node at `path`, mirroring `getNode`'s walk. -/
def fsUpdateAt (fs : FileSystem) (path : String) (f : FSNode → FSNode) : FileSystem :=
  if path = "/" then { fs with root := f fs.root }
  else { fs with root := updateNodeSegs f fs.root (pathSegments path) }

/-! ## Node CRUD (`terminalStorage.ts`) -/

/-- The parent-path / final-name split that `createNode` and `deleteNode`
both perform (`lastIndexOf('/')`, `substring`). -/
def splitParent (path : String) : String × String :=
  let lastSlashIndex := lastIndexOf path '/'
  let parentPath := if lastSlashIndex ≤ 0 then "/" else strTake path lastSlashIndex.toNat
  let name := strDrop path (lastSlashIndex + 1).toNat
  (parentPath, name)

/-- Default permission strings assigned by `createNode`. -/
def defaultPermissions : NodeType → String
  | .file => "rw-r--r--"
  | .directory => "rwxr-xr-x"

/-- `createNode` from `terminalStorage.ts`.  The boolean is the source's
return value; the `FileSystem` is the (possibly) saved store. -/
def createNode (fs : FileSystem) (path : String) (type : NodeType)
    (content : String) (now : Nat) : FileSystem × Bool :=
  let pn := splitParent path
  if pn.2 = "" then (fs, false)
  else
    match getNode fs pn.1 with
    | none => (fs, false)
    | some parentNode =>
      if parentNode.type ≠ .directory then (fs, false)
      else if (parentNode.children.lookup pn.2).isSome then (fs, false)
      else
        let newNode : FSNode :=
          FSNode.mk type
            (if type = .file then some content else none)
            FSChildren.nil
            fs.currentUser (defaultPermissions type) now now
        (fsUpdateAt fs pn.1
          (fun p => p.withChildren (p.children.insert pn.2 newNode)), true)

/-- `deleteNode` from `terminalStorage.ts`. -/
def deleteNode (fs : FileSystem) (path : String) : FileSystem × Bool :=
  let pn := splitParent path
  if pn.2 = "" then (fs, false)
  else
    match getNode fs pn.1 with
    | none => (fs, false)
    | some parentNode =>
      if parentNode.type ≠ .directory then (fs, false)
      else if (parentNode.children.lookup pn.2).isNone then (fs, false)
      else
        (fsUpdateAt fs pn.1
          (fun p => p.withChildren (p.children.erase pn.2)), true)

/- `cloneNode`: deep clone with `created` kept and `modified = Date.now()`
at every level (the source calls `Date.now()` per node; a single call's
value is used for all of them here). -/
mutual
/-- Deep clone of a node, refreshing `modified` everywhere. -/
def cloneNode (now : Nat) : FSNode → FSNode
  | .mk t c ch o p cr _ => .mk t c (cloneChildren now ch) o p cr now

/-- Deep clone of a `children` mapping. -/
def cloneChildren (now : Nat) : FSChildren → FSChildren
  | .nil => .nil
  | .cons n v r => .cons n (cloneNode now v) (cloneChildren now r)
end

/-- The regex `/([^/]+)$/` used by `copyNode` on the source path: the
maximal nonempty run of non-`/` characters at the end, if any. -/
def baseName (s : String) : Option String :=
  let b : String := ⟨(s.data.reverse.takeWhile (fun c => c ≠ '/')).reverse⟩
  if b = "" then none else some b

/-- The non-directory-destination arm of `copyNode`: split the literal
target path at its last `/` (`substring(0, lastSlash) || '/'`). -/
def copyLiteralTarget (destinationPath : String) : Option (String × String) :=
  let lastSlash := lastIndexOf destinationPath '/'
  if lastSlash < 0 then none
  else
    let pre := strTake destinationPath lastSlash.toNat
    some ((if pre = "" then "/" else pre), strDrop destinationPath (lastSlash + 1).toNat)

/-- `copyNode` from `terminalStorage.ts`. -/
def copyNode (fs : FileSystem) (sourcePath destinationPath : String)
    (now : Nat) : FileSystem × Bool :=
  match getNode fs sourcePath with
  | none => (fs, false)
  | some sourceNode =>
    let target : Option (String × String) :=
      match getNode fs destinationPath with
      | some destNode =>
        if destNode.type = .directory then
          match baseName sourcePath with
          | none => none
          | some b => some (destinationPath, b)
        else copyLiteralTarget destinationPath
      | none => copyLiteralTarget destinationPath
    match target with
    | none => (fs, false)
    | some dd =>
      match getNode fs dd.1 with
      | none => (fs, false)
      | some destDir =>
        if destDir.type ≠ .directory then (fs, false)
        else
          (fsUpdateAt fs dd.1
            (fun d => d.withChildren (d.children.insert dd.2 (cloneNode now sourceNode))), true)

/-- `moveNode`: `copyNode` then `deleteNode(src)`; `false` as soon as the
copy fails. -/
def moveNode (fs : FileSystem) (sourcePath destinationPath : String)
    (now : Nat) : FileSystem × Bool :=
  let r := copyNode fs sourcePath destinationPath now
  if r.2 then deleteNode r.1 sourcePath else (r.1, false)

/-- The strict `^[r-][w-][x-][r-][w-][x-][r-][w-][x-]$` test from
`changePermissions`. -/
def isStrictModeString (mode : String) : Bool :=
  match mode.data with
  | [a, b, c, d, e, f, g, h, i] =>
    (a == 'r' || a == '-') && (b == 'w' || b == '-') && (c == 'x' || c == '-') &&
    (d == 'r' || d == '-') && (e == 'w' || e == '-') && (f == 'x' || f == '-') &&
    (g == 'r' || g == '-') && (h == 'w' || h == '-') && (i == 'x' || i == '-')
  | _ => false

/-- `changePermissions` from `terminalStorage.ts`, with the source's
inverted validation: a mode matching the strict pattern is rejected, any
other string is stored verbatim. -/
def changePermissions (fs : FileSystem) (path mode : String) : FileSystem × Bool :=
  match getNode fs path with
  | none => (fs, false)
  | some _ =>
    if !(isStrictModeString mode) then
      (fsUpdateAt fs path (fun n => n.withPermissions mode), true)
    else (fs, false)

/-! ## Authentication and users -/

/-- `authenticateUser`: plaintext comparison against the registry. -/
def authenticateUser (fs : FileSystem) (username password : String) : Bool :=
  match usersLookup fs.users username with
  | none => false
  | some u => u.password == password

/-- `switchUser`: set `currentUser` and persist; fails for an unknown user. -/
def switchUser (fs : FileSystem) (username : String) : FileSystem × Bool :=
  match usersLookup fs.users username with
  | none => (fs, false)
  | some _ => ({ fs with currentUser := username }, true)

/-- The `.bashrc` seeded by `addUser`. -/
def addUserBashrc (username : String) (now : Nat) : FSNode :=
  FSNode.mk .file
    (some ("# ~/.bashrc for " ++ username ++
      "\n# User specific settings\nPS1=\"\\[\\033[01;32m\\]\\u@\\h:\\w\\$\\[\\033[00m\\] \""))
    FSChildren.nil username "rw-r--r--" now now

/-- `addUser` from `terminalStorage.ts`: register the user, create the home
directory, seed `.bashrc` (the JS guard `homeDir && homeDir.children`
holds exactly for a directory node, since only directories carry a
`children` map). -/
def addUser (fs : FileSystem) (username password : String) (isAdmin : Bool)
    (now : Nat) : FileSystem × Bool :=
  if (usersLookup fs.users username).isSome then (fs, false)
  else
    let fs1 : FileSystem :=
      { fs with users := fs.users ++ [(username, ⟨password, isAdmin, "/home/" ++ username⟩)] }
    let fs2 := (createNode fs1 ("/home/" ++ username) .directory "" now).1
    let fs3 :=
      match getNode fs2 ("/home/" ++ username) with
      | some homeDir =>
        if homeDir.type = .directory then
          fsUpdateAt fs2 ("/home/" ++ username)
            (fun h => h.withChildren (h.children.insert ".bashrc" (addUserBashrc username now)))
        else fs2
      | none => fs2
    (fs3, true)

/-! ## Command history (`commandProcessor.ts`) -/

/-- The module-level `commandHistory` object. -/
structure CommandHistory where
  commands : List String
  position : Int
deriving DecidableEq

/-- Initial history: no commands, `position = -1`. -/
def initialHistory : CommandHistory := ⟨[], -1⟩

/-- `addToHistory`: push unless blank or identical to the immediately
preceding entry; the cursor always moves to one past the end. -/
def addToHistory (h : CommandHistory) (command : String) : CommandHistory :=
  let commands :=
    if strTrim command ≠ "" ∧ (h.commands = [] ∨ h.commands.getLast? ≠ some command)
    then h.commands ++ [command] else h.commands
  ⟨commands, (commands.length : Int)⟩

/-- JS indexing `commands[i]` with out-of-range `undefined` (and the
source's `|| ''`) rendered as the empty string. -/
def jsGet (l : List String) (i : Int) : String :=
  if i < 0 then "" else (l.get? i.toNat).getD ""

/-- `getPreviousCommand`: decrement the cursor when positive, then return
the entry under it. -/
def getPreviousCommand (h : CommandHistory) : String × CommandHistory :=
  if h.commands.length = 0 then ("", h)
  else
    let p := if h.position > 0 then h.position - 1 else h.position
    (jsGet h.commands p, ⟨h.commands, p⟩)

/-- `getNextCommand`: advance and return the entry while strictly before
the last entry; otherwise park the cursor one past the end and return `""`. -/
def getNextCommand (h : CommandHistory) : String × CommandHistory :=
  if h.position < (h.commands.length : Int) - 1 then
    let p := h.position + 1
    (jsGet h.commands p, ⟨h.commands, p⟩)
  else ("", ⟨h.commands, (h.commands.length : Int)⟩)

/-! ## Terminal state and results (`commandProcessor.ts`) -/

/-- `TerminalState` from the source. -/
structure TerminalState where
  currentPath : String
  output : List String
  currentInput : String
  inputPosition : Nat
  isPasswordMode : Bool
  tempUser : String
  sudoMode : Bool
  sudoCommand : String

/-- `initialTerminalState` from the source. -/
def initialTerminalState : TerminalState :=
  ⟨"/home/ubuntu",
   ["Welcome to Ubuntu 22.04.1 LTS (GNU/Linux 5.15.0-56-generic x86_64)",
    "Type \"help\" to see available commands."],
   "", 0, false, "", false, ""⟩

/-- `CommandResult`: `none` models a field left `undefined` in the source. -/
structure CommandResult where
  output : List String
  newPath : Option String
  isPasswordMode : Option Bool
  tempUser : Option String
  sudoMode : Option Bool
  sudoCommand : Option String

/-- A result carrying only output lines. -/
def outOnly (lines : List String) : CommandResult :=
  ⟨lines, none, none, none, none, none⟩

/-- JS `args[i]`, with out-of-range `undefined` rendered as `""` (the only
uses are either guarded by length checks or JS-falsy tests). -/
def argD (args : List String) (i : Nat) : String :=
  args.getD i ""

/-! ## Command handlers (`processCommandInternal` cases) -/

/-- The `rm` case body.  It is a separate definition because the `echo`
case can fall through into it (see `echoCase`). -/
def rmLogic (args : List String) (state : TerminalState) (fs : FileSystem) :
    CommandResult × FileSystem :=
  let acc := (args.drop 1).foldl
    (fun (acc : Bool × Bool × String) a =>
      if strStartsWith a "-" then
        (acc.1 || strContainsChar a 'r' || strContainsChar a 'R',
         acc.2.1 || strContainsChar a 'f', acc.2.2)
      else (acc.1, acc.2.1, a)) (false, false, "")
  let recursive := acc.1
  let force := acc.2.1
  let rmPath := acc.2.2
  if rmPath = "" then (outOnly ["rm: missing operand"], fs)
  else
    let rmNodePath := resolvePath fs rmPath state.currentPath
    match getNode fs rmNodePath with
    | none =>
      if force then (outOnly [], fs)
      else (outOnly ["rm: cannot remove \x27" ++ rmPath ++ "\x27: No such file or directory"], fs)
    | some rmNode =>
      if rmNode.type = .directory ∧ recursive = false then
        (outOnly ["rm: cannot remove \x27" ++ rmPath ++ "\x27: Is a directory"], fs)
      else
        let r := deleteNode fs rmNodePath
        if r.2 then (outOnly [], r.1)
        else (outOnly ["rm: cannot remove \x27" ++ rmPath ++ "\x27"], r.1)

/-- The `>>` arm of `echo` redirection: append to an existing file with a
`\n` separator; error if the target is a directory; create the file when it
is missing.  When that creation fails the source's `case` block ends
without a `return` and control falls through into the `rm` case — modelled
by the `rmLogic` call. -/
def echoAppend (args : List String) (state : TerminalState) (fs : FileSystem)
    (content redirectPath : String) (now : Nat) : CommandResult × FileSystem :=
  let appendPath := resolvePath fs redirectPath state.currentPath
  match getNode fs appendPath with
  | some appendNode =>
    if appendNode.type = .file then
      (outOnly [],
       fsUpdateAt fs appendPath (fun n =>
         FSNode.mk n.type (some ((n.content.getD "") ++ "\n" ++ content))
           n.children n.owner n.permissions n.created now))
    else (outOnly ["echo: " ++ redirectPath ++ ": Is a directory"], fs)
  | none =>
    let r := createNode fs appendPath .file content now
    if r.2 then (outOnly [], r.1)
    else rmLogic args state r.1

/-- The `>` arm of `echo` redirection: overwrite an existing file's content
(refreshing `modified`), create a missing file, or report a directory /
missing-parent error. -/
def echoWrite (state : TerminalState) (fs : FileSystem)
    (content redirectPath0 : String) (now : Nat) : CommandResult × FileSystem :=
  let writePath := resolvePath fs redirectPath0 state.currentPath
  let pn := splitParent writePath
  match getNode fs pn.1 with
  | none => (outOnly ["echo: " ++ redirectPath0 ++ ": No such file or directory"], fs)
  | some parentNode =>
    if parentNode.type ≠ .directory then
      (outOnly ["echo: " ++ redirectPath0 ++ ": No such file or directory"], fs)
    else
      match parentNode.children.lookup pn.2 with
      | some child =>
        if child.type = .file then
          (outOnly [],
           fsUpdateAt fs pn.1 (fun p => p.withChildren (p.children.insert pn.2
             (FSNode.mk child.type (some content) child.children child.owner
               child.permissions child.created now))))
        else (outOnly ["echo: " ++ redirectPath0 ++ ": Is a directory"], fs)
      | none => (outOnly [], (createNode fs writePath .file content now).1)

/-- The `echo` case body: no redirection prints the text; `>` overwrites or
creates; `>>` appends with a `\n` separator. -/
def echoCase (args : List String) (state : TerminalState) (fs : FileSystem)
    (now : Nat) : CommandResult × FileSystem :=
  let echoText := strJoin " " (args.drop 1)
  let redirectIndex := strIndexOf echoText '>'
  if redirectIndex ≥ 0 then
    let content := strTrim (strTake echoText redirectIndex.toNat)
    let redirectPath0 := strTrim (strDrop echoText (redirectIndex + 1).toNat)
    if strStartsWith redirectPath0 ">" then
      echoAppend args state fs content (strTrim (strDrop redirectPath0 1)) now
    else echoWrite state fs content redirectPath0 now
  else (outOnly [echoText], fs)

/-- The `ls` case body. -/
def lsCase (args : List String) (state : TerminalState) (fs : FileSystem) :
    CommandResult × FileSystem :=
  let acc := (args.drop 1).foldl
    (fun (acc : String × Bool × Bool) a =>
      if strStartsWith a "-" then
        (acc.1, acc.2.1 || strContainsChar a 'a', acc.2.2 || strContainsChar a 'l')
      else (resolvePath fs a state.currentPath, acc.2.1, acc.2.2))
    (state.currentPath, false, false)
  let lsPath := acc.1
  let showHidden := acc.2.1
  let longFormat := acc.2.2
  match getNode fs lsPath with
  | none =>
    (outOnly ["ls: cannot access \x27" ++ argD args 1 ++ "\x27: No such file or directory"], fs)
  | some lsNode =>
    if lsNode.type = .file then (outOnly [argD args 1], fs)
    else
      let entries := lsNode.children.toList.filter
        (fun e => showHidden || !(strStartsWith e.1 "."))
      if longFormat then
        (outOnly (entries.map (fun e =>
          let typeChar := if e.2.type = .directory then "d" else "-"
          let sizeStr := if e.2.type = .file then toString (e.2.content.getD "").length else "4096"
          -- the source renders `modified` through locale date/time strings;
          -- abstracted here to the raw timestamp
          let dateStr := toString e.2.modified
          typeChar ++ e.2.permissions ++ " " ++ e.2.owner ++ " " ++ sizeStr ++ " " ++
            dateStr ++ " " ++ e.1 ++ (if e.2.type = .directory then "/" else ""))), fs)
      else
        let names := entries.map (fun e => if e.2.type = .directory then e.1 ++ "/" else e.1)
        if names = [] then (outOnly [""], fs)
        else (outOnly [strJoin "  " names], fs)

/-- The `apt` / `apt-get` case body (canned transcripts). -/
def aptCase (args : List String) (fs : FileSystem) : CommandResult × FileSystem :=
  let aptCommand := argD args 1
  if aptCommand = "update" then
    (outOnly ["Reading package lists... Done", "Building dependency tree... Done",
      "All packages are up to date."], fs)
  else if aptCommand = "upgrade" then
    (outOnly ["Reading package lists... Done", "Building dependency tree... Done",
      "Calculating upgrade... Done",
      "0 upgraded, 0 newly installed, 0 to remove and 0 not upgraded."], fs)
  else if aptCommand = "install" then
    if args.length < 3 then (outOnly ["apt: Missing package name"], fs)
    else
      (outOnly ["Simulating installation of " ++ strJoin ", " (args.drop 2) ++ "...", "Done!"], fs)
  else
    (outOnly ["apt-get commands:", "  update - Retrieve new lists of packages",
      "  upgrade - Perform an upgrade", "  install - Install packages"], fs)

/-- The `man` case body (canned manual pages for `ls` and `cd`). -/
def manCase (args : List String) (fs : FileSystem) : CommandResult × FileSystem :=
  if args.length < 2 then (outOnly ["What manual page do you want?"], fs)
  else
    let manCommand := strToLower (argD args 1)
    if manCommand = "ls" then
      (outOnly ["NAME", "       ls - list directory contents", "", "SYNOPSIS",
        "       ls [OPTION]... [FILE]...", "", "DESCRIPTION",
        "       List information about the FILEs (the current directory by default).",
        "       Sort entries alphabetically.", "", "       -a, --all",
        "              do not ignore entries starting with .", "",
        "       -l     use a long listing format"], fs)
    else if manCommand = "cd" then
      (outOnly ["NAME", "       cd - change the working directory", "", "SYNOPSIS",
        "       cd [dir]", "", "DESCRIPTION",
        "       Change the shell working directory.", "",
        "       Change the current directory to DIR. The default DIR is the value of the",
        "       HOME shell variable."], fs)
    else (outOnly ["No manual entry for " ++ manCommand], fs)

/-! ## The dispatcher -/

/-- `processCommandInternal`: parse the line, dispatch on the lowercased
command name.  `store` is the persisted snapshot (`loadFileSystem()` reads
it, each `saveFileSystem` replaces it — the second component of the result
is its final value).  `now` stands for `Date.now()`, `rand` for the
`Math.random()` draw in `ps`/`top`. -/
def processCommandInternal (command : String) (state : TerminalState)
    (store : FileSystem) (now rand : Nat) : CommandResult × FileSystem :=
  let fs := store
  let args := splitArgs command
  let cmd := strToLower (argD args 0)
  if strTrim command = "" then (outOnly [], fs)
  else if cmd = "sudo" then
    if args.length > 1 then
      (⟨["[sudo] password for " ++ fs.currentUser ++ ":"], none, none, none,
        some true, some (strJoin " " (args.drop 1))⟩, fs)
    else (outOnly ["sudo: command required"], fs)
  else match cmd with
  | "pwd" => (outOnly [state.currentPath], fs)
  | "cd" =>
    let targetPath := if argD args 1 = "" then "~" else argD args 1
    let resolved := resolvePath fs targetPath state.currentPath
    match getNode fs resolved with
    | none => (outOnly ["cd: " ++ argD args 1 ++ ": No such file or directory"], fs)
    | some targetNode =>
      if targetNode.type ≠ .directory then
        (outOnly ["cd: " ++ argD args 1 ++ ": Not a directory"], fs)
      else (⟨[], some resolved, none, none, none, none⟩, fs)
  | "ls" => lsCase args state fs
  | "mkdir" =>
    if args.length < 2 then (outOnly ["mkdir: missing operand"], fs)
    else
      let dirPath := resolvePath fs (argD args 1) state.currentPath
      let r := createNode fs dirPath .directory "" now
      if r.2 then (outOnly [], r.1)
      else
        (outOnly ["mkdir: cannot create directory \x27" ++ argD args 1 ++
          "\x27: File exists or invalid path"], r.1)
  | "touch" =>
    if args.length < 2 then (outOnly ["touch: missing file operand"], fs)
    else
      let filePath := resolvePath fs (argD args 1) state.currentPath
      let r := createNode fs filePath .file "" now
      if r.2 then (outOnly [], r.1)
      else
        (outOnly ["touch: cannot touch \x27" ++ argD args 1 ++
          "\x27: File exists or invalid path"], r.1)
  | "cat" =>
    if args.length < 2 then (outOnly ["cat: missing file operand"], fs)
    else
      let catPath := resolvePath fs (argD args 1) state.currentPath
      match getNode fs catPath with
      | none => (outOnly ["cat: " ++ argD args 1 ++ ": No such file or directory"], fs)
      | some fileNode =>
        if fileNode.type ≠ .directory then
          (outOnly (splitChar (fileNode.content.getD "") '\n'), fs)
        else (outOnly ["cat: " ++ argD args 1 ++ ": Is a directory"], fs)
  | "echo" => echoCase args state fs now
  | "rm" => rmLogic args state fs
  | "clear" => (outOnly ["CLEAR_TERMINAL"], fs)
  | "whoami" => (outOnly [fs.currentUser], fs)
  | "su" =>
    let targetUser := if argD args 1 = "" then "root" else argD args 1
    match usersLookup fs.users targetUser with
    | none => (outOnly ["su: user " ++ targetUser ++ " does not exist"], fs)
    | some u =>
      if fs.currentUser = "root" ∨ targetUser = fs.currentUser then
        (⟨[], some u.homeDir, none, none, none, none⟩, (switchUser fs targetUser).1)
      else
        (⟨["Password for " ++ targetUser ++ ":"], none, some true, some targetUser,
          none, none⟩, fs)
  | "adduser" =>
    if fs.currentUser ≠ "root" then
      (outOnly ["adduser: Only root may add a user or group to the system."], fs)
    else if args.length < 2 then (outOnly ["adduser: Missing username"], fs)
    else
      let newUsername := argD args 1
      let newPassword := if argD args 2 = "" then newUsername else argD args 2
      let r := addUser fs newUsername newPassword false now
      if r.2 then
        (outOnly ["Added user " ++ newUsername ++ ". Home directory created at /home/" ++
          newUsername], r.1)
      else (outOnly ["adduser: The user \x27" ++ newUsername ++ "\x27 already exists."], r.1)
  | "passwd" =>
    if args.length < 2 then (outOnly ["passwd: Missing username"], fs)
    else if fs.currentUser ≠ "root" ∧ fs.currentUser ≠ argD args 1 then
      (outOnly ["passwd: Only root can change passwords for other users"], fs)
    else if (usersLookup fs.users (argD args 1)).isNone then
      (outOnly ["passwd: user \x27" ++ argD args 1 ++ "\x27 does not exist"], fs)
    else if args.length < 3 then (outOnly ["passwd: Missing new password"], fs)
    else
      (outOnly ["Password for " ++ argD args 1 ++ " changed"],
       { fs with users := usersSetPassword fs.users (argD args 1) (argD args 2) })
  | "apt" => aptCase args fs
  | "apt-get" => aptCase args fs
  | "grep" =>
    if args.length < 3 then (outOnly ["grep: missing pattern or file"], fs)
    else
      let pattern := argD args 1
      let grepPath := resolvePath fs (argD args 2) state.currentPath
      match getNode fs grepPath with
      | none => (outOnly ["grep: " ++ argD args 2 ++ ": No such file or directory"], fs)
      | some grepNode =>
        if grepNode.type ≠ .file then
          (outOnly ["grep: " ++ argD args 2 ++ ": Is a directory"], fs)
        else
          let matchingLines := (splitChar (grepNode.content.getD "") '\n').filter
            (fun line => strContainsSubstr line pattern)
          (outOnly (if matchingLines.length > 0 then matchingLines else [""]), fs)
  | "date" =>
    -- the source prints `new Date().toString()`; locale formatting is
    -- abstracted to the raw timestamp
    (outOnly [toString now], fs)
  | "uname" =>
    if args.contains "-a" then
      (outOnly ["Linux terminal-simulation 5.15.0-56-generic #1 SMP Ubuntu 22.04.1 LTS x86_64 GNU/Linux"], fs)
    else (outOnly ["Linux"], fs)
  | "df" =>
    (outOnly ["Filesystem     1K-blocks    Used Available Use% Mounted on",
      "udev             8151440       0   8151440   0% /dev",
      "tmpfs            1638624    1852   1636772   1% /run",
      "/dev/sda1      165735648 5121324 151918800   4% /"], fs)
  | "ps" =>
    (outOnly ["PID TTY          TIME CMD", "  1 pts/0    00:00:00 bash",
      "  " ++ toString (rand % 9000 + 1000) ++ " pts/0    00:00:00 ps"], fs)
  | "top" =>
    (outOnly ["top - " ++ toString now ++
        " up 2 days,  3:12,  1 user,  load average: 0.00, 0.01, 0.05",
      "Tasks:   3 total,   1 running,   2 sleeping,   0 stopped,   0 zombie",
      "%Cpu(s):  2.0 us,  1.0 sy,  0.0 ni, 97.0 id,  0.0 wa,  0.0 hi,  0.0 si,  0.0 st",
      "MiB Mem :  16000.0 total,  14000.0 free,   1200.0 used,    800.0 buff/cache",
      "MiB Swap:   2048.0 total,   2048.0 free,      0.0 used.  14000.0 avail Mem",
      "",
      "  PID USER      PR  NI    VIRT    RES    SHR S  %CPU  %MEM     TIME+ COMMAND",
      "    1 root      20   0   10000   2400   1600 S   0.0   0.0   0:00.10 init",
      toString (rand % 9000 + 1000) ++ " " ++ fs.currentUser ++
        "      20   0   12000   3000   2000 R   0.7   0.0   0:00.01 top",
      "(press q to quit)"], fs)
  | "cp" =>
    if args.length < 3 then (outOnly ["cp: missing file operand"], fs)
    else
      let sourcePath := resolvePath fs (argD args 1) state.currentPath
      let destinationPath := resolvePath fs (argD args 2) state.currentPath
      match getNode fs sourcePath with
      | none =>
        (outOnly ["cp: cannot stat \x27" ++ argD args 1 ++ "\x27: No such file or directory"], fs)
      | some _ =>
        let r := copyNode fs sourcePath destinationPath now
        if r.2 then (outOnly [], r.1)
        else
          (outOnly ["cp: cannot copy \x27" ++ argD args 1 ++ "\x27 to \x27" ++
            argD args 2 ++ "\x27"], r.1)
  | "mv" =>
    if args.length < 3 then (outOnly ["mv: missing file operand"], fs)
    else
      let mvSourcePath := resolvePath fs (argD args 1) state.currentPath
      let mvDestinationPath := resolvePath fs (argD args 2) state.currentPath
      match getNode fs mvSourcePath with
      | none =>
        (outOnly ["mv: cannot stat \x27" ++ argD args 1 ++ "\x27: No such file or directory"], fs)
      | some _ =>
        let r := moveNode fs mvSourcePath mvDestinationPath now
        if r.2 then (outOnly [], r.1)
        else
          (outOnly ["mv: cannot move \x27" ++ argD args 1 ++ "\x27 to \x27" ++
            argD args 2 ++ "\x27"], r.1)
  | "chmod" =>
    if args.length < 3 then (outOnly ["chmod: missing operand"], fs)
    else
      let mode := argD args 1
      let chmodPath := resolvePath fs (argD args 2) state.currentPath
      match getNode fs chmodPath with
      | none =>
        (outOnly ["chmod: cannot access \x27" ++ argD args 2 ++
          "\x27: No such file or directory"], fs)
      | some _ =>
        let r := changePermissions fs chmodPath mode
        if r.2 then (outOnly [], r.1)
        else (outOnly ["chmod: invalid mode: \x27" ++ mode ++ "\x27"], r.1)
  | "man" => manCase args fs
  | "help" =>
    (outOnly ["Available commands:",
      "File operations: ls, cd, mkdir, touch, cat, rm, cp, mv, pwd, chmod",
      "System commands: clear, whoami, su, sudo, adduser, passwd",
      "Package management: apt-get, apt", "Text processing: echo, grep",
      "Information: date, uname, df, ps, top, man, help", "",
      "Use man <command> for more information on specific commands."], fs)
  | "exit" => (outOnly ["Exiting terminal session..."], fs)
  | _ =>
    if argD args 1 = "--help" ∨ argD args 1 = "-h" then
      (outOnly ["Help for " ++ cmd ++ " would be displayed here."], fs)
    else (outOnly [cmd ++ ": command not found"], fs)

/-- `processCommand`: the state machine entry point.  In sudo mode with a
(JS-truthy, i.e. nonempty) password the buffered command runs with
`currentUser` temporarily set to `root`; note that the final
`saveFileSystem(fs)` in the source saves the *outer* snapshot loaded
before the inner command ran, so the inner command's persisted effects
are discarded (`inner.2` is dropped below, exactly as the source drops
them).  The `none`-password call is the plain dispatch the UI uses for
normal lines. -/
def processCommand (command : String) (state : TerminalState)
    (password : Option String) (store : FileSystem) (now rand : Nat) :
    CommandResult × FileSystem :=
  match password with
  | none => processCommandInternal command state store now rand
  | some pw =>
    if state.sudoMode = true ∧ pw ≠ "" then
      let fs := store
      if authenticateUser fs "root" pw then
        let originalUser := fs.currentUser
        let fs1 := { fs with currentUser := "root" }
        let inner := processCommandInternal state.sudoCommand state fs1 now rand
        let fs2 := { fs1 with currentUser := originalUser }
        ({ inner.1 with sudoMode := some false, sudoCommand := some "" }, fs2)
      else
        (⟨["Sorry, try again."], none, none, none, some false, some ""⟩, store)
    else if state.isPasswordMode = true ∧ pw ≠ "" then
      let fs := store
      if authenticateUser fs state.tempUser pw then
        let fs1 := (switchUser fs state.tempUser).1
        let homeDir :=
          match usersLookup fs.users state.tempUser with
          | some u => if u.homeDir = "" then "/home/" ++ state.tempUser else u.homeDir
          | none => "/home/" ++ state.tempUser
        (⟨["Welcome, " ++ state.tempUser ++ "!"], some homeDir, some false, some "",
          none, none⟩, fs1)
      else
        (⟨["Authentication failed."], none, some false, some "", none, none⟩, store)
    else processCommandInternal command state store now rand

/-! ## The default snapshot (`defaultFileSystem`) -/

/-- Association-list shorthand for building `children` mappings. -/
def FSChildren.ofList : List (String × FSNode) → FSChildren
  | [] => .nil
  | (n, v) :: r => .cons n v (ofList r)

/-- `defaultFileSystem` from `terminalStorage.ts`; every `Date.now()` in
the literal is the parameter `t`. -/
def defaultFileSystem (t : Nat) : FileSystem :=
  { root := FSNode.mk .directory none (FSChildren.ofList
      [("home", FSNode.mk .directory none (FSChildren.ofList
          [("ubuntu", FSNode.mk .directory none (FSChildren.ofList
              [("welcome.txt", FSNode.mk .file
                  (some "Welcome to Ubuntu Terminal!\nType \"help\" to see available commands.")
                  .nil "ubuntu" "rw-r--r--" t t),
               (".bashrc", FSNode.mk .file
                  (some "# ~/.bashrc: executed by bash for non-login shells\n# If not running interactively, don\x27t do anything\n[[ \"$-\" != *i* ]] && return\n# Don\x27t put duplicate lines in the history\nHISTCONTROL=ignoreboth")
                  .nil "ubuntu" "rw-r--r--" t t)])
            "ubuntu" "rwxr-xr-x" t t)])
        "root" "rwxr-xr-x" t t),
       ("etc", FSNode.mk .directory none (FSChildren.ofList
          [("passwd", FSNode.mk .file
              (some "root:x:0:0:root:/root:/bin/bash\nubuntu:x:1000:1000:Ubuntu:/home/ubuntu:/bin/bash")
              .nil "root" "rw-r--r--" t t),
           ("hostname", FSNode.mk .file (some "ubuntu-terminal") .nil "root" "rw-r--r--" t t),
           ("hosts", FSNode.mk .file (some "127.0.0.1 localhost\n127.0.1.1 ubuntu-terminal")
              .nil "root" "rw-r--r--" t t)])
        "root" "rwxr-xr-x" t t),
       ("bin", FSNode.mk .directory none .nil "root" "rwxr-xr-x" t t),
       ("usr", FSNode.mk .directory none (FSChildren.ofList
          [("bin", FSNode.mk .directory none .nil "root" "rwxr-xr-x" t t)])
        "root" "rwxr-xr-x" t t),
       ("var", FSNode.mk .directory none (FSChildren.ofList
          [("log", FSNode.mk .directory none (FSChildren.ofList
              [("syslog", FSNode.mk .file
                  (some "Apr 16 00:00:00 ubuntu-terminal systemd[1]: Started User Manager for UID 1000.\nApr 16 00:00:01 ubuntu-terminal systemd[1]: Starting System Logger...\nApr 16 00:00:01 ubuntu-terminal systemd[1]: Started System Logger.")
                  .nil "root" "rw-r--r--" t t)])
            "root" "rwxr-xr-x" t t)])
        "root" "rwxr-xr-x" t t),
       ("tmp", FSNode.mk .directory none .nil "root" "rwxrwxrwx" t t),
       ("root", FSNode.mk .directory none (FSChildren.ofList
          [(".bashrc", FSNode.mk .file
              (some "# ~/.bashrc: executed by bash for non-login shells\n# Root user specific settings\nPS1=\"\\[\\033[01;31m\\]\\u@\\h:\\w\\$\\[\\033[00m\\] \"")
              .nil "root" "rw-------" t t)])
        "root" "rwx------" t t)])
      "root" "rwxr-xr-x" t t,
    currentUser := "ubuntu",
    users :=
      [("root", ⟨"toor", true, "/root"⟩),
       ("ubuntu", ⟨"ubuntu", false, "/home/ubuntu"⟩)] }

/-! ## Basic lemmas about the embedding -/

@[simp] theorem FSNode.type_mk (t c ch o p cr m) :
    (FSNode.mk t c ch o p cr m).type = t := rfl

@[simp] theorem FSNode.content_mk (t c ch o p cr m) :
    (FSNode.mk t c ch o p cr m).content = c := rfl

@[simp] theorem FSNode.children_mk (t c ch o p cr m) :
    (FSNode.mk t c ch o p cr m).children = ch := rfl

@[simp] theorem FSNode.owner_mk (t c ch o p cr m) :
    (FSNode.mk t c ch o p cr m).owner = o := rfl

@[simp] theorem FSNode.permissions_mk (t c ch o p cr m) :
    (FSNode.mk t c ch o p cr m).permissions = p := rfl

@[simp] theorem FSNode.created_mk (t c ch o p cr m) :
    (FSNode.mk t c ch o p cr m).created = cr := rfl

@[simp] theorem FSNode.modified_mk (t c ch o p cr m) :
    (FSNode.mk t c ch o p cr m).modified = m := rfl

@[simp] theorem FSNode.type_withChildren (n : FSNode) (ch : FSChildren) :
    (n.withChildren ch).type = n.type := by cases n; rfl

@[simp] theorem FSNode.children_withChildren (n : FSNode) (ch : FSChildren) :
    (n.withChildren ch).children = ch := by cases n; rfl

@[simp] theorem FSNode.type_withPermissions (n : FSNode) (p : String) :
    (n.withPermissions p).type = n.type := by cases n; rfl

@[simp] theorem FSNode.permissions_withPermissions (n : FSNode) (p : String) :
    (n.withPermissions p).permissions = p := by cases n; rfl

/-- Looking up the key just inserted returns the inserted value. -/
theorem FSChildren.lookup_insert :
    ∀ (ch : FSChildren) (k : String) (v : FSNode), (ch.insert k v).lookup k = some v
  | .nil, k, v => by simp [FSChildren.insert, FSChildren.lookup]
  | .cons n w r, k, v => by
    by_cases h : n = k
    · simp [FSChildren.insert, FSChildren.lookup, h]
    · simp [FSChildren.insert, FSChildren.lookup, h, FSChildren.lookup_insert r k v]

/-- `updateNodeSegs` rebuilds exactly the walk that `getNodeSegs` takes, so
reading back along the same segments sees `f` applied. -/
theorem getNodeSegs_updateNodeSegs (f : FSNode → FSNode) :
    ∀ (segs : List String) (node n : FSNode),
      getNodeSegs node segs = some n →
      getNodeSegs (updateNodeSegs f node segs) segs = some (f n)
  | [], node, n, h => by
    simp [getNodeSegs] at h
    subst h
    simp [getNodeSegs, updateNodeSegs]
  | s :: rest, node, n, h => by
    cases hc : node.children.lookup s with
    | none => simp [getNodeSegs, hc] at h
    | some c =>
      simp [getNodeSegs, hc] at h
      simp [updateNodeSegs, hc, getNodeSegs, FSChildren.lookup_insert,
        getNodeSegs_updateNodeSegs f rest c n h]

/-- Reading back the updated path sees `f` applied to the old node. -/
theorem getNode_fsUpdateAt (fs : FileSystem) (path : String) (f : FSNode → FSNode)
    (n : FSNode) (h : getNode fs path = some n) :
    getNode (fsUpdateAt fs path f) path = some (f n) := by
  by_cases hp : path = "/"
  · simp [getNode, fsUpdateAt, hp] at h ⊢
    exact congrArg f h
  · simp [getNode, fsUpdateAt, hp] at h ⊢
    exact getNodeSegs_updateNodeSegs f _ _ _ h

/-- A top-level-type-preserving `f` leaves the type of the updated node's
root unchanged. -/
theorem updateNodeSegs_type (f : FSNode → FSNode) (hf : ∀ m, (f m).type = m.type)
    (node : FSNode) (segs : List String) :
    (updateNodeSegs f node segs).type = node.type := by
  cases segs with
  | nil => exact hf node
  | cons s rest =>
    cases hc : node.children.lookup s with
    | none => simp [updateNodeSegs, hc]
    | some c => simp [updateNodeSegs, hc]

/-- `fsUpdateAt` with a type-preserving `f` preserves the root's type. -/
theorem fsUpdateAt_root_type (fs : FileSystem) (path : String) (f : FSNode → FSNode)
    (hf : ∀ m, (f m).type = m.type) :
    (fsUpdateAt fs path f).root.type = fs.root.type := by
  by_cases hp : path = "/"
  · simp [fsUpdateAt, hp, hf]
  · simp [fsUpdateAt, hp, updateNodeSegs_type f hf]

theorem createNode_root_type (fs : FileSystem) (path : String) (t : NodeType)
    (content : String) (now : Nat) :
    ((createNode fs path t content now).1).root.type = fs.root.type := by
  simp only [createNode]
  split
  · rfl
  · split
    · rfl
    · split
      · rfl
      · split
        · rfl
        · exact fsUpdateAt_root_type _ _ _ (fun m => by simp)

theorem deleteNode_root_type (fs : FileSystem) (path : String) :
    ((deleteNode fs path).1).root.type = fs.root.type := by
  simp only [deleteNode]
  split
  · rfl
  · split
    · rfl
    · split
      · rfl
      · split
        · rfl
        · exact fsUpdateAt_root_type _ _ _ (fun m => by simp)

theorem copyNode_root_type (fs : FileSystem) (sourcePath destinationPath : String)
    (now : Nat) :
    ((copyNode fs sourcePath destinationPath now).1).root.type = fs.root.type := by
  simp only [copyNode]
  split
  · rfl
  · split
    · rfl
    · split
      · rfl
      · split
        · rfl
        · exact fsUpdateAt_root_type _ _ _ (fun m => by simp)

theorem moveNode_root_type (fs : FileSystem) (sourcePath destinationPath : String)
    (now : Nat) :
    ((moveNode fs sourcePath destinationPath now).1).root.type = fs.root.type := by
  simp only [moveNode]
  split
  · rw [deleteNode_root_type, copyNode_root_type]
  · exact copyNode_root_type fs sourcePath destinationPath now

theorem changePermissions_root_type (fs : FileSystem) (path mode : String) :
    ((changePermissions fs path mode).1).root.type = fs.root.type := by
  simp only [changePermissions]
  split
  · rfl
  · split
    · exact fsUpdateAt_root_type _ _ _ (fun m => by simp)
    · rfl

/-! ## Operation sequences (for the root invariant) -/

/-- One mutating store operation. -/
inductive FSOp where
  | create (path : String) (t : NodeType) (content : String) (now : Nat)
  | delete (path : String)
  | copy (src dst : String) (now : Nat)
  | move (src dst : String) (now : Nat)
  | chmod (path mode : String)

/-- Apply one operation, keeping the resulting store. -/
def applyOp (fs : FileSystem) : FSOp → FileSystem
  | .create path t content now => (createNode fs path t content now).1
  | .delete path => (deleteNode fs path).1
  | .copy src dst now => (copyNode fs src dst now).1
  | .move src dst now => (moveNode fs src dst now).1
  | .chmod path mode => (changePermissions fs path mode).1

/-- Apply a sequence of operations left to right. -/
def applyOps (fs : FileSystem) (ops : List FSOp) : FileSystem :=
  ops.foldl applyOp fs

theorem applyOp_root_type (fs : FileSystem) (op : FSOp) :
    (applyOp fs op).root.type = fs.root.type := by
  cases op with
  | create path t content now => exact createNode_root_type fs path t content now
  | delete path => exact deleteNode_root_type fs path
  | copy src dst now => exact copyNode_root_type fs src dst now
  | move src dst now => exact moveNode_root_type fs src dst now
  | chmod path mode => exact changePermissions_root_type fs path mode

theorem applyOps_root_type :
    ∀ (ops : List FSOp) (fs : FileSystem),
      (applyOps fs ops).root.type = fs.root.type
  | [], fs => rfl
  | op :: rest, fs => by
    rw [show applyOps fs (op :: rest) = applyOps (applyOp fs op) rest from rfl]
    rw [applyOps_root_type rest (applyOp fs op), applyOp_root_type]

/-! ## The deep-clone property -/

/- Checker for the specified clone relationship: the copy agrees with the
original on `type`, `content`, `owner`, `permissions` and `created` at
every node of the subtree, has `modified = now` everywhere, and has the
same child names in the same order.  (This is the specification-side
reading of "deep recursive clone"; `cloneNode` is the source's function.) -/
mutual
/-- Specified deep-clone relation between an original node and its copy. -/
def isDeepClone (now : Nat) : FSNode → FSNode → Bool
  | .mk t c ch o p cr _, .mk t' c' ch' o' p' cr' m' =>
    (t' == t) && (c' == c) && (o' == o) && (p' == p) && (cr' == cr) && (m' == now) &&
      isDeepCloneChildren now ch ch'

/-- Specified deep-clone relation between `children` mappings. -/
def isDeepCloneChildren (now : Nat) : FSChildren → FSChildren → Bool
  | .nil, .nil => true
  | .cons n v r, .cons n' v' r' =>
    (n' == n) && isDeepClone now v v' && isDeepCloneChildren now r r'
  | .nil, .cons _ _ _ => false
  | .cons _ _ _, .nil => false
end

mutual
theorem isDeepClone_cloneNode (now : Nat) :
    ∀ n : FSNode, isDeepClone now n (cloneNode now n) = true
  | .mk t c ch o p cr m => by
    simp [cloneNode, isDeepClone, isDeepCloneChildren_cloneChildren now ch]

theorem isDeepCloneChildren_cloneChildren (now : Nat) :
    ∀ ch : FSChildren, isDeepCloneChildren now ch (cloneChildren now ch) = true
  | .nil => rfl
  | .cons n v r => by
    simp [cloneChildren, isDeepCloneChildren, isDeepClone_cloneNode now v,
      isDeepCloneChildren_cloneChildren now r]
end

/-! ## Shared concrete values for witnesses and counterexamples -/

/-- The default snapshot at time 0: the persisted store every scenario
below starts from. -/
def F0 : FileSystem := defaultFileSystem 0

/-- Placeholder node for total lookups in witness statements. -/
def dummyNode : FSNode := FSNode.mk .file none .nil "" "" 0 0

/-- The node stored at a path (total version, for closed statements). -/
def nodeAt (fs : FileSystem) (p : String) : FSNode :=
  (getNode fs p).getD dummyNode

/-- Session state awaiting the sudo password for `rm -r /etc`. -/
def sudoEtcState : TerminalState :=
  { initialTerminalState with sudoMode := true, sudoCommand := "rm -r /etc" }

/-! ## Claim C2 -/

/-- C2: for every existing node path and every mode string,
`changePermissions` fails (leaving the store unchanged) when the mode
matches the strict 9-character `[r-][w-][x-]`×3 pattern, and succeeds,
storing the mode verbatim as the node's permissions, when it does not. -/
theorem claim_C2_changePermissions (fs : FileSystem) (path mode : String)
    (n : FSNode) (h : getNode fs path = some n) :
    (isStrictModeString mode = true → changePermissions fs path mode = (fs, false)) ∧
    (isStrictModeString mode = false →
      (changePermissions fs path mode).2 = true ∧
      getNode (changePermissions fs path mode).1 path = some (n.withPermissions mode) ∧
      (n.withPermissions mode).permissions = mode) := by
  constructor
  · intro hs
    simp [changePermissions, h, hs]
  · intro hs
    simp only [changePermissions, h]
    simp [hs]
    exact getNode_fsUpdateAt fs path _ n h

/-- Witness for C2 at the default store: a canonical mode string on `/etc`
is rejected with the store unchanged. -/
theorem claim_C2_witness :
    changePermissions F0 "/etc" "rwxr-xr-x" = (F0, false) :=
  (claim_C2_changePermissions F0 "/etc" "rwxr-xr-x" (nodeAt F0 "/etc") rfl).1 rfl

/-! ## Claim C3 -/

/-- C3: path resolution is purely lexical: absolute inputs pass through
unchanged; `..` pops the last segment of the current path (a no-op at
root, so never a negative depth), `.` is skipped, and
`resolve("a/../b", "/x") = "/x/b"`. -/
theorem claim_C3_resolvePath :
    (∀ (fs : FileSystem) (path currentPath : String),
      strStartsWith path "/" = true → resolvePath fs path currentPath = path) ∧
    (∀ (fs : FileSystem) (currentPath : String),
      resolvePath fs ".." currentPath =
        "/" ++ strJoin "/" (pathSegments currentPath).dropLast) ∧
    (∀ fs : FileSystem, resolvePath fs ".." "/" = "/") ∧
    (∀ (fs : FileSystem) (currentPath : String),
      resolvePath fs "." currentPath = "/" ++ strJoin "/" (pathSegments currentPath)) ∧
    (∀ fs : FileSystem, resolvePath fs "a/../b" "/x" = "/x/b") := by
  refine ⟨fun fs path currentPath h => ?_, fun fs currentPath => rfl, fun fs => rfl,
    fun fs currentPath => rfl, fun fs => rfl⟩
  simp [resolvePath, h]

/-- Witness for C3: concrete instances of each part on the default store. -/
theorem claim_C3_witness :
    resolvePath F0 "/etc" "/home/ubuntu" = "/etc" ∧
    resolvePath F0 ".." "/" = "/" ∧
    resolvePath F0 "a/../b" "/x" = "/x/b" :=
  ⟨claim_C3_resolvePath.1 F0 "/etc" "/home/ubuntu" rfl,
   claim_C3_resolvePath.2.2.1 F0,
   claim_C3_resolvePath.2.2.2.2 F0⟩

/-! ## Claim C7 -/

/-- C7: `moveNode` is exactly `copyNode` followed by `deleteNode src`,
succeeding iff both succeed; it is not atomic — on the default store,
moving `/etc/` to `/tmp/x` copies successfully, then the delete of the
trailing-slash source path fails, and both paths resolve to equivalent
nodes afterwards. -/
theorem claim_C7_moveNode :
    (∀ (fs : FileSystem) (src dst : String) (now : Nat),
      (moveNode fs src dst now).2 = true ↔
        ((copyNode fs src dst now).2 = true ∧
         (deleteNode (copyNode fs src dst now).1 src).2 = true)) ∧
    (∀ (fs : FileSystem) (src dst : String) (now : Nat),
      (copyNode fs src dst now).2 = true →
      moveNode fs src dst now = deleteNode (copyNode fs src dst now).1 src) ∧
    (∀ (fs : FileSystem) (src dst : String) (now : Nat),
      (copyNode fs src dst now).2 = false →
      moveNode fs src dst now = ((copyNode fs src dst now).1, false)) ∧
    ((moveNode F0 "/etc/" "/tmp/x" 3).2 = false ∧
     (copyNode F0 "/etc/" "/tmp/x" 3).2 = true ∧
     (deleteNode (copyNode F0 "/etc/" "/tmp/x" 3).1 "/etc/").2 = false ∧
     getNode (moveNode F0 "/etc/" "/tmp/x" 3).1 "/etc/" = some (nodeAt F0 "/etc") ∧
     getNode (moveNode F0 "/etc/" "/tmp/x" 3).1 "/tmp/x" =
       some (cloneNode 3 (nodeAt F0 "/etc")) ∧
     isDeepClone 3 (nodeAt F0 "/etc") (cloneNode 3 (nodeAt F0 "/etc")) = true) := by
  refine ⟨fun fs src dst now => ?_, fun fs src dst now h => ?_, fun fs src dst now h => ?_,
    rfl, rfl, rfl, rfl, rfl, isDeepClone_cloneNode 3 (nodeAt F0 "/etc")⟩
  · simp only [moveNode]
    cases h : (copyNode fs src dst now).2 <;> simp [h]
  · simp only [moveNode, h, if_true]
  · simp only [moveNode, h, Bool.false_eq_true, if_false]

/-- Witness for C7 at a concrete non-atomic instance. -/
theorem claim_C7_witness :
    moveNode F0 "/etc/" "/tmp/x" 3 = deleteNode (copyNode F0 "/etc/" "/tmp/x" 3).1 "/etc/" :=
  claim_C7_moveNode.2.1 F0 "/etc/" "/tmp/x" 3 rfl

/-! ## Claim C9 -/

/-- C9: the history is append-only with adjacent-duplicate suppression;
the cursor decrements on "previous" but never below 0, and increments on
"next" but is clamped to one past the last entry, where the returned
string is empty. -/
theorem claim_C9_history (h : CommandHistory) (c : String) (hpos : 0 ≤ h.position) :
    ((addToHistory h c).commands = h.commands ∨
     (addToHistory h c).commands = h.commands ++ [c]) ∧
    (h.commands.getLast? = some c → (addToHistory h c).commands = h.commands) ∧
    0 ≤ (getPreviousCommand h).2.position ∧
    (h.commands.length ≠ 0 → 0 < h.position →
      (getPreviousCommand h).2.position = h.position - 1) ∧
    (getNextCommand h).2.position ≤ (h.commands.length : Int) ∧
    (h.position < (h.commands.length : Int) - 1 →
      (getNextCommand h).2.position = h.position + 1) ∧
    ((h.commands.length : Int) - 1 ≤ h.position →
      (getNextCommand h).2.position = (h.commands.length : Int) ∧
      (getNextCommand h).1 = "") := by
  refine ⟨?_, ?_, ?_, ?_, ?_, ?_, ?_⟩
  · simp only [addToHistory]
    split
    · exact Or.inr rfl
    · exact Or.inl rfl
  · intro hl
    have hne : h.commands ≠ [] := by
      intro he
      rw [he] at hl
      simp at hl
    simp only [addToHistory]
    split
    · rename_i hc
      exact absurd hl (by tauto)
    · rfl
  · simp only [getPreviousCommand]
    split
    · exact hpos
    · dsimp only
      split
      · omega
      · exact hpos
  · intro hne hgt
    simp only [getPreviousCommand]
    rw [if_neg hne, if_pos hgt]
  · simp only [getNextCommand]
    split
    · dsimp only
      omega
    · dsimp only
      omega
  · intro hlt
    simp only [getNextCommand]
    rw [if_pos hlt]
  · intro hge
    simp only [getNextCommand]
    rw [if_neg (by omega)]
    exact ⟨rfl, rfl⟩

/-- Witness for C9 with a one-entry history whose cursor sits at the end:
"next" stays clamped one past the last entry and yields `""`. -/
theorem claim_C9_witness :
    (getNextCommand ⟨["ls"], 1⟩).2.position = ((["ls"] : List String).length : Int) ∧
    (getNextCommand ⟨["ls"], 1⟩).1 = "" :=
  (claim_C9_history ⟨["ls"], 1⟩ "ls" (by decide)).2.2.2.2.2.2 (by decide)

/-! ## Claim C10 -/

/-- C10: the root can never be deleted or replaced: `deleteNode fs "/"`
always fails (empty final name), `createNode` with an empty final segment
always fails, and any sequence of store operations leaves `getNode "/"`
returning the root directory node. -/
theorem claim_C10_root_invariant :
    (∀ fs : FileSystem, deleteNode fs "/" = (fs, false)) ∧
    (∀ (fs : FileSystem) (path : String) (t : NodeType) (content : String) (now : Nat),
      (splitParent path).2 = "" → (createNode fs path t content now).2 = false) ∧
    (∀ (fs : FileSystem) (ops : List FSOp),
      fs.root.type = NodeType.directory →
      (applyOps fs ops).root.type = NodeType.directory ∧
      getNode (applyOps fs ops) "/" = some (applyOps fs ops).root) := by
  refine ⟨fun fs => rfl, fun fs path t content now hn => ?_, fun fs ops hroot => ?_⟩
  · simp [createNode, hn]
  · refine ⟨?_, by simp [getNode]⟩
    rw [applyOps_root_type ops fs]
    exact hroot

/-- Witness for C10: a delete/create/chmod sequence on the default store
keeps the root a directory, and an empty-final-segment create fails. -/
theorem claim_C10_witness :
    (createNode F0 "/tmp/" NodeType.directory "" 1).2 = false ∧
    (applyOps F0 [FSOp.delete "/etc", FSOp.create "/a" NodeType.directory "" 1,
        FSOp.chmod "/" "banana"]).root.type = NodeType.directory ∧
    getNode (applyOps F0 [FSOp.delete "/etc", FSOp.create "/a" NodeType.directory "" 1,
        FSOp.chmod "/" "banana"]) "/" =
      some (applyOps F0 [FSOp.delete "/etc", FSOp.create "/a" NodeType.directory "" 1,
        FSOp.chmod "/" "banana"]).root :=
  ⟨claim_C10_root_invariant.2.1 F0 "/tmp/" NodeType.directory "" 1 rfl,
   (claim_C10_root_invariant.2.2 F0 _ rfl).1,
   (claim_C10_root_invariant.2.2 F0 _ rfl).2⟩

/-! ## Claim C5 -/

/-- C5 counterexample: `createNode` on `"/tmp/"` fails although the parent
path it computes (`"/tmp"`) exists, is a directory, and has no child named
`""` — so "fails exactly when the parent does not exist, is not a
directory, or already has a child of that name" is false as stated: the
empty final name is a fourth failure condition. -/
theorem claim_C5_counterexample :
    (createNode F0 "/tmp/" NodeType.file "" 1).2 = false ∧
    getNode F0 "/tmp" = some (nodeAt F0 "/tmp") ∧
    (nodeAt F0 "/tmp").type = NodeType.directory ∧
    ((nodeAt F0 "/tmp").children.lookup "").isSome = false :=
  ⟨rfl, rfl, rfl, rfl⟩

/-- C5 (amended): `createNode(path, kind)` fails exactly when the final
name segment (after the last `/`) is empty, the parent does not exist, is
not a directory, or already has a child of that name; on success the new
node has `owner = currentUser`, the default permissions for its kind, and
`created = modified = now`; moreover creating a file then reading it back
gives a file node with empty content, and a second create at the same path
fails. -/
theorem claim_C5_createNode (fs : FileSystem) (path : String) (t : NodeType)
    (content : String) (now : Nat) :
    ((createNode fs path t content now).2 = false ↔
      ((splitParent path).2 = "" ∨
       ∀ p, getNode fs (splitParent path).1 = some p →
         (p.type ≠ NodeType.directory ∨
          (p.children.lookup (splitParent path).2).isSome = true))) ∧
    (∀ p, getNode fs (splitParent path).1 = some p → p.type = NodeType.directory →
      (p.children.lookup (splitParent path).2) = none → (splitParent path).2 ≠ "" →
      (createNode fs path t content now).2 = true ∧
      getNode (createNode fs path t content now).1 (splitParent path).1 =
        some (p.withChildren (p.children.insert (splitParent path).2
          (FSNode.mk t (if t = NodeType.file then some content else none) .nil
            fs.currentUser (defaultPermissions t) now now)))) ∧
    getNode (createNode F0 "/tmp/f.txt" NodeType.file "" 3).1 "/tmp/f.txt" =
      some (FSNode.mk NodeType.file (some "") .nil "ubuntu" "rw-r--r--" 3 3) ∧
    (createNode (createNode F0 "/tmp/f.txt" NodeType.file "" 3).1 "/tmp/f.txt"
      NodeType.file "" 4).2 = false := by
  refine ⟨?_, ?_, rfl, rfl⟩
  · by_cases hn : (splitParent path).2 = ""
    · simp [createNode, hn]
    · cases hg : getNode fs (splitParent path).1 with
      | none =>
        simp only [createNode, hn, hg]
        simp [hn]
      | some parent =>
        by_cases hd : parent.type = NodeType.directory
        · by_cases hl : (parent.children.lookup (splitParent path).2).isSome = true
          · simp only [createNode, hn, hg]
            simp [hn, hd, hl]
          · simp only [createNode, hn, hg]
            simp [hn, hd, hl]
        · simp only [createNode, hn, hg]
          simp [hn, hd]
  · intro p hp hd hl hn
    have hstep : createNode fs path t content now =
        (fsUpdateAt fs (splitParent path).1
          (fun q => q.withChildren (q.children.insert (splitParent path).2
            (FSNode.mk t (if t = NodeType.file then some content else none) .nil
              fs.currentUser (defaultPermissions t) now now))), true) := by
      simp [createNode, hn, hp, hd, hl]
    rw [hstep]
    exact ⟨rfl, getNode_fsUpdateAt fs (splitParent path).1 _ p hp⟩

/-- Witness for C5 (amended) at the default store: creating `/tmp/g`
succeeds and the parent's children gain the default-permission file node
owned by the current user. -/
theorem claim_C5_witness :
    (createNode F0 "/tmp/g" NodeType.file "" 2).2 = true ∧
    getNode (createNode F0 "/tmp/g" NodeType.file "" 2).1 "/tmp" =
      some ((nodeAt F0 "/tmp").withChildren ((nodeAt F0 "/tmp").children.insert "g"
        (FSNode.mk NodeType.file (some "") .nil "ubuntu" "rw-r--r--" 2 2))) :=
  (claim_C5_createNode F0 "/tmp/g" NodeType.file "" 2).2.1 (nodeAt F0 "/tmp")
    rfl rfl rfl (by decide)

/-! ## Claim C6 -/

/-- C6 counterexample: the source node at `"/etc/"` exists and `"/tmp"`
resolves to an existing directory, yet `copyNode` fails, because the
trailing-slash source path has no base-name match — so "for every source
path whose node exists …" is false as stated. -/
theorem claim_C6_counterexample :
    (getNode F0 "/etc/").isSome = true ∧
    getNode F0 "/tmp" = some (nodeAt F0 "/tmp") ∧
    (nodeAt F0 "/tmp").type = NodeType.directory ∧
    (copyNode F0 "/etc/" "/tmp" 2).2 = false :=
  ⟨rfl, rfl, rfl, rfl⟩

/-- C6 (amended): for every source path whose node exists *and whose base
name is nonempty* (the path does not end in `/`), and every destination
path resolving to an existing directory, `copyNode` copies the source into
that directory under its base name, and the copy is a deep recursive clone
in which every node has `modified = now` while `created`, `content`,
`type`, `owner` and `permissions` are preserved from the original. -/
theorem claim_C6_copyNode (fs : FileSystem) (src dst : String) (now : Nat)
    (s d : FSNode) (b : String) (hs : getNode fs src = some s)
    (hd : getNode fs dst = some d) (hdir : d.type = NodeType.directory)
    (hb : baseName src = some b) :
    (copyNode fs src dst now).2 = true ∧
    getNode (copyNode fs src dst now).1 dst =
      some (d.withChildren (d.children.insert b (cloneNode now s))) ∧
    isDeepClone now s (cloneNode now s) = true := by
  have hstep : copyNode fs src dst now =
      (fsUpdateAt fs dst
        (fun q => q.withChildren (q.children.insert b (cloneNode now s))), true) := by
    simp [copyNode, hs, hd, hdir, hb]
  rw [hstep]
  exact ⟨rfl, getNode_fsUpdateAt fs dst _ d hd, isDeepClone_cloneNode now s⟩

/-- Witness for C6 (amended): copying `/etc` into `/tmp` on the default
store inserts a deep clone under the base name `etc`. -/
theorem claim_C6_witness :
    (copyNode F0 "/etc" "/tmp" 2).2 = true ∧
    getNode (copyNode F0 "/etc" "/tmp" 2).1 "/tmp" =
      some ((nodeAt F0 "/tmp").withChildren ((nodeAt F0 "/tmp").children.insert "etc"
        (cloneNode 2 (nodeAt F0 "/etc")))) ∧
    isDeepClone 2 (nodeAt F0 "/etc") (cloneNode 2 (nodeAt F0 "/etc")) = true :=
  claim_C6_copyNode F0 "/etc" "/tmp" 2 (nodeAt F0 "/etc") (nodeAt F0 "/tmp") "etc"
    rfl rfl rfl rfl

/-! ## Echo lemmas -/

/-- Overwrite arm of `echo >`: with an existing file child under an
existing directory parent, the content is replaced and `modified`
refreshed; everything else is kept. -/
theorem echoWrite_overwrite (st : TerminalState) (fs : FileSystem)
    (content rp0 wp pp nm : String) (now : Nat) (P : FSNode)
    (old : Option String) (ch : FSChildren) (o p : String) (cr m : Nat)
    (hres : resolvePath fs rp0 st.currentPath = wp)
    (hsp : splitParent wp = (pp, nm))
    (hP : getNode fs pp = some P) (hPdir : P.type = NodeType.directory)
    (hchild : P.children.lookup nm = some (FSNode.mk .file old ch o p cr m)) :
    echoWrite st fs content rp0 now =
      (outOnly [], fsUpdateAt fs pp (fun q => q.withChildren (q.children.insert nm
        (FSNode.mk NodeType.file (some content) ch o p cr now)))) := by
  simp [echoWrite, hres, hsp, hP, hPdir, hchild]

/-- Append arm of `echo >>`: with an existing file at the resolved path,
the content gains a `\n`-separated suffix and `modified` is refreshed. -/
theorem echoAppend_existing (args : List String) (st : TerminalState)
    (fs : FileSystem) (content rp ap : String) (now : Nat)
    (old : String) (ch : FSChildren) (o p : String) (cr m : Nat)
    (hres : resolvePath fs rp st.currentPath = ap)
    (hfile : getNode fs ap = some (FSNode.mk .file (some old) ch o p cr m)) :
    echoAppend args st fs content rp now =
      (outOnly [], fsUpdateAt fs ap (fun n =>
        FSNode.mk n.type (some ((n.content.getD "") ++ "\n" ++ content))
          n.children n.owner n.permissions n.created now)) := by
  simp [echoAppend, hres, hfile]

/-! ## Claim C8 -/

/-- Store after `echo hello > a.txt` from the default snapshot. -/
def echoStep1 : CommandResult × FileSystem :=
  processCommand "echo hello > a.txt" initialTerminalState none F0 7 0

/-- `cat a.txt` after step 1. -/
def echoStep2 : CommandResult × FileSystem :=
  processCommand "cat a.txt" initialTerminalState none echoStep1.2 8 0

/-- `echo world >> a.txt` after step 2. -/
def echoStep3 : CommandResult × FileSystem :=
  processCommand "echo world >> a.txt" initialTerminalState none echoStep2.2 9 0

/-- `cat a.txt` after step 3. -/
def echoStep4 : CommandResult × FileSystem :=
  processCommand "cat a.txt" initialTerminalState none echoStep3.2 10 0

/-- C8: `echo text > file` overwrites or creates the target file, `echo
text >> file` appends with a newline separator, both error on a directory
target; concretely, `echo hello > a.txt` then `cat a.txt` prints `hello`,
and a subsequent `echo world >> a.txt` makes `cat a.txt` print the two
lines `hello`, `world`. -/
theorem claim_C8_echo :
    (echoStep1.1.output = [] ∧ echoStep2.1.output = ["hello"] ∧
     echoStep3.1.output = [] ∧ echoStep4.1.output = ["hello", "world"]) ∧
    (processCommand "echo x > /etc" initialTerminalState none F0 7 0 =
       (outOnly ["echo: /etc: Is a directory"], F0) ∧
     processCommand "echo x >> /etc" initialTerminalState none F0 7 0 =
       (outOnly ["echo: /etc: Is a directory"], F0)) ∧
    (∀ (fs : FileSystem) (out : List String) (ci : String) (ip : Nat) (pm : Bool)
       (tu : String) (sm : Bool) (sc : String) (now rand : Nat) (P : FSNode)
       (old : Option String) (ch : FSChildren) (o p : String) (cr m : Nat),
      getNode fs "/home/ubuntu" = some P → P.type = NodeType.directory →
      P.children.lookup "a.txt" = some (FSNode.mk .file old ch o p cr m) →
      processCommand "echo hello > a.txt"
          (TerminalState.mk "/home/ubuntu" out ci ip pm tu sm sc) none fs now rand =
        (outOnly [], fsUpdateAt fs "/home/ubuntu"
          (fun q => q.withChildren (q.children.insert "a.txt"
            (FSNode.mk NodeType.file (some "hello") ch o p cr now)))) ∧
      getNode (processCommand "echo hello > a.txt"
          (TerminalState.mk "/home/ubuntu" out ci ip pm tu sm sc) none fs now rand).2
          "/home/ubuntu" =
        some (P.withChildren (P.children.insert "a.txt"
          (FSNode.mk NodeType.file (some "hello") ch o p cr now)))) ∧
    (∀ (fs : FileSystem) (out : List String) (ci : String) (ip : Nat) (pm : Bool)
       (tu : String) (sm : Bool) (sc : String) (now rand : Nat)
       (old : String) (ch : FSChildren) (o p : String) (cr m : Nat),
      getNode fs "/home/ubuntu/a.txt" = some (FSNode.mk .file (some old) ch o p cr m) →
      getNode (processCommand "echo world >> a.txt"
          (TerminalState.mk "/home/ubuntu" out ci ip pm tu sm sc) none fs now rand).2
          "/home/ubuntu/a.txt" =
        some (FSNode.mk NodeType.file (some (old ++ "\n" ++ "world")) ch o p cr now) ∧
      (processCommand "echo world >> a.txt"
          (TerminalState.mk "/home/ubuntu" out ci ip pm tu sm sc) none fs now rand).1.output
        = []) := by
  refine ⟨⟨rfl, rfl, rfl, rfl⟩, ⟨rfl, rfl⟩, ?_, ?_⟩
  · intro fs out ci ip pm tu sm sc now rand P old ch o p cr m hP hPdir hchild
    have hdisp : processCommand "echo hello > a.txt"
        (TerminalState.mk "/home/ubuntu" out ci ip pm tu sm sc) none fs now rand =
        echoWrite (TerminalState.mk "/home/ubuntu" out ci ip pm tu sm sc) fs
          "hello" "a.txt" now := rfl
    have hover := echoWrite_overwrite
      (TerminalState.mk "/home/ubuntu" out ci ip pm tu sm sc) fs "hello" "a.txt"
      "/home/ubuntu/a.txt" "/home/ubuntu" "a.txt" now P old ch o p cr m
      rfl rfl hP hPdir hchild
    rw [hdisp, hover]
    exact ⟨rfl, getNode_fsUpdateAt fs "/home/ubuntu" _ P hP⟩
  · intro fs out ci ip pm tu sm sc now rand old ch o p cr m hfile
    have hdisp : processCommand "echo world >> a.txt"
        (TerminalState.mk "/home/ubuntu" out ci ip pm tu sm sc) none fs now rand =
        echoAppend ["echo", "world", ">>", "a.txt"]
          (TerminalState.mk "/home/ubuntu" out ci ip pm tu sm sc) fs
          "world" "a.txt" now := rfl
    have happ := echoAppend_existing ["echo", "world", ">>", "a.txt"]
      (TerminalState.mk "/home/ubuntu" out ci ip pm tu sm sc) fs "world" "a.txt"
      "/home/ubuntu/a.txt" now old ch o p cr m rfl hfile
    rw [hdisp, happ]
    exact ⟨getNode_fsUpdateAt fs "/home/ubuntu/a.txt" _ _ hfile, rfl⟩

/-- Witness for C8: the general append part applied to the store produced
by `echo hello > a.txt`, whose `a.txt` holds `hello`. -/
theorem claim_C8_witness :
    getNode (processCommand "echo world >> a.txt"
        (TerminalState.mk "/home/ubuntu" [] "" 0 false "" false "") none
        echoStep1.2 9 0).2 "/home/ubuntu/a.txt" =
      some (FSNode.mk NodeType.file (some ("hello" ++ "\n" ++ "world")) .nil
        "ubuntu" "rw-r--r--" 7 9) ∧
    (processCommand "echo world >> a.txt"
        (TerminalState.mk "/home/ubuntu" [] "" 0 false "" false "") none
        echoStep1.2 9 0).1.output = [] :=
  claim_C8_echo.2.2.2 echoStep1.2 [] "" 0 false "" false "" 9 0
    "hello" .nil "ubuntu" "rw-r--r--" 7 7 rfl

/-! ## Claim C4 -/

/-- C4 counterexample: an empty submitted line in sudo mode is not the
root password, yet it is JS-falsy, so the interpreter processes it as a
normal (empty) command: no "Sorry, try again." is printed and the result
leaves the mode fields unset instead of clearing them. -/
theorem claim_C4_counterexample :
    authenticateUser F0 "root" "" = false ∧
    (processCommand "" sudoEtcState (some "") F0 0 0).1.output = [] ∧
    (processCommand "" sudoEtcState (some "") F0 0 0).1.output ≠ ["Sorry, try again."] ∧
    (processCommand "" sudoEtcState (some "") F0 0 0).1.sudoMode = none ∧
    (processCommand "" sudoEtcState (some "") F0 0 0).1.sudoCommand = none :=
  ⟨rfl, rfl, by decide, rfl, rfl⟩

/-- C4 (amended): in sudo mode, when the submitted line is *nonempty* and
is not the root password, the interpreter outputs "Sorry, try again.",
returns to Normal with the buffered command cleared, does not execute it,
and leaves the persisted store (including `currentUser`) unchanged. -/
theorem claim_C4_sudo_failure (command : String) (state : TerminalState)
    (pw : String) (store : FileSystem) (now rand : Nat)
    (hm : state.sudoMode = true) (hpw : pw ≠ "")
    (hauth : authenticateUser store "root" pw = false) :
    processCommand command state (some pw) store now rand =
      (⟨["Sorry, try again."], none, none, none, some false, some ""⟩, store) := by
  simp [processCommand, hm, hpw, hauth]

/-- Witness for C4 (amended): the wrong password `x` on the default store. -/
theorem claim_C4_witness :
    processCommand "x" sudoEtcState (some "x") F0 0 0 =
      (⟨["Sorry, try again."], none, none, none, some false, some ""⟩, F0) :=
  claim_C4_sudo_failure "x" sudoEtcState "x" F0 0 0 rfl (by decide) rfl

/-! ## Claim C1 -/

/-- C1: with the correct root password, the buffered `rm -r /etc` *does*
execute as root on its own loaded snapshot (removing `/etc` there, with
empty output), but the final `saveFileSystem(fs)` of the sudo flow writes
the outer snapshot that was loaded before the inner command ran, so the
persisted store afterwards equals the original default store: `/etc` is
still present, against the claim.  Only the `currentUser = ubuntu` part
holds. -/
theorem claim_C1_sudo_persistence_bug :
    authenticateUser F0 "root" "toor" = true ∧
    getNode (processCommandInternal "rm -r /etc" sudoEtcState
      { F0 with currentUser := "root" } 5 0).2 "/etc" = none ∧
    (processCommand "toor" sudoEtcState (some "toor") F0 5 0).1.output = [] ∧
    (processCommand "toor" sudoEtcState (some "toor") F0 5 0).1.sudoMode = some false ∧
    (processCommand "toor" sudoEtcState (some "toor") F0 5 0).1.sudoCommand = some "" ∧
    (processCommand "toor" sudoEtcState (some "toor") F0 5 0).2 = F0 ∧
    (getNode (processCommand "toor" sudoEtcState (some "toor") F0 5 0).2 "/etc").isSome
      = true ∧
    (processCommand "toor" sudoEtcState (some "toor") F0 5 0).2.currentUser = "ubuntu" :=
  ⟨rfl, rfl, rfl, rfl, rfl, rfl, rfl, rfl⟩

end TerminalLinux
